import Mathlib

/-!
Verification development for the devnet-faucet abuse-prevention core.

The repository's rate-limiting engine consists of a request-frequency
limiter (`FrequencyChecker`), a per-token allowance tracker
(`TokenAllowanceTracker`), and a small front-end transaction-history
composable (`useTransactions`).  The history composable is embedded
directly from `src/composables/useTransactions.js`.  The two tracker
modules are exercised by the repository's test files but their
implementation files are not part of the source tree available here,
so their operations are modelled from the specification document,
faithful to its words (each such definition is marked
`Modelled from the spec:`).

Stores are embedded as association lists (`List (String × _)`), which
mirror JavaScript `Map` objects: unique keys, insertion order
preserved, lookup by key.  Timestamps are `Nat` milliseconds since
epoch; token amounts are `Nat` (JavaScript `BigInt` values are
non-negative throughout this codebase).
-/

/-- The rolling window: 24 hours in milliseconds. -/
def windowMs : Nat := 24 * 60 * 60 * 1000

/-- Association-list lookup, mirroring JavaScript `Map.get`. -/
def lookupList (m : List (String × α)) (k : String) : Option α :=
  (m.find? (fun p => p.1 == k)).map (fun p => p.2)

/-- Association-list insert-or-replace, mirroring JavaScript `Map.set`:
an existing key is updated in place, a new key is appended. -/
def setList (m : List (String × α)) (k : String) (v : α) : List (String × α) :=
  if (m.find? (fun p => p.1 == k)).isSome then
    m.map (fun p => if p.1 == k then (k, v) else p)
  else
    m ++ [(k, v)]

/-- An event timestamp is valid iff it is within the rolling window from
`now`, i.e. `t ≥ now − windowMs` (stated additively to stay in `Nat`). -/
def isValid (now t : Nat) : Bool := now ≤ t + windowMs

/-- The valid (non-expired) timestamps of a sequence, relative to `now`. -/
def validOf (now : Nat) (ts : List Nat) : List Nat := ts.filter (isValid now)

namespace FrequencyChecker

/-- Modelled from the spec: the `FrequencyChecker` in-memory state
(`checker.js` is not in the available source tree) — a mapping from
identity key to the ordered sequence of request timestamps. -/
abbrev CState := List (String × List Nat)

/-- Modelled from the spec: identity-key composition for addresses,
`addr_<address>_<network>`. -/
def addrKey (address network : String) : String :=
  "addr_" ++ address ++ "_" ++ network

/-- Modelled from the spec: `checkLimit(key, limit, label)` reads the
stored timestamp sequence for `key` (empty if absent), filters out
timestamps older than the rolling window, and returns
`count(remaining) < limit`. -/
def checkLimit (st : CState) (now : Nat) (key : String) (limit : Nat) : Bool :=
  (validOf now ((lookupList st key).getD [])).length < limit

/-- Modelled from the spec: the stateful view of a `checkLimit` call —
the spec states the filtering is read-only with respect to the stored
state (pruning happens only in `cleanup`), so the call returns the
boolean verdict and performs no write. -/
def checkLimitCall (st : CState) (now : Nat) (key : String) (limit : Nat) :
    Bool × CState :=
  (checkLimit st now key limit, st)

/-- Modelled from the spec: `update(key)` appends `now` to the key's
timestamp sequence, creating the sequence if absent. -/
def update (st : CState) (now : Nat) (key : String) : CState :=
  setList st key (((lookupList st key).getD []) ++ [now])

/-- One key's compaction step: keep the valid timestamps, or drop the
entry when none remain. -/
def pruneEntry (now : Nat) (p : String × List Nat) : Option (String × List Nat) :=
  if (validOf now p.2).isEmpty then none else some (p.1, validOf now p.2)

/-- Modelled from the spec: `cleanup()` removes, for every key, the
timestamps older than the rolling window, and drops a key entirely when
its sequence becomes empty. -/
def cleanup (st : CState) (now : Nat) : CState :=
  st.filterMap (pruneEntry now)

/-- Modelled from the spec: `getRemainingTime(address, network)` is `0`
when the identity has no valid timestamps, and otherwise
`windowLength − (now − oldestValidTimestamp)`; negative results are
clamped to `0`. -/
def getRemainingTime (st : CState) (now : Nat) (address network : String) : Int :=
  match (validOf now ((lookupList st (addrKey address network)).getD [])).min? with
  | none => 0
  | some oldest => max 0 ((windowMs : Int) - ((now : Int) - (oldest : Int)))

/-- Modelled from the spec: loading the persisted snapshot.  `none`
models a missing file, `some none` content that fails to parse as JSON,
`some (some d)` a successfully parsed `requests` list; both failure
conditions yield the empty store. -/
def loadRequests (file : Option (Option CState)) : CState :=
  match file with
  | none => []
  | some none => []
  | some (some d) => d

/-- Modelled from the spec: `saveData()` serializes the requests mapping;
the boolean argument models whether the filesystem write succeeds.  On
failure nothing is written (`none`) and no error propagates; in either
case the in-memory state is returned unchanged. -/
def saveDataC (st : CState) (writeOk : Bool) : Option CState × CState :=
  if writeOk then (some st, st) else (none, st)

end FrequencyChecker

namespace UseTransactions

/-- The `MAX_TRANSACTIONS` bound of `src/composables/useTransactions.js`. -/
def MAX_TRANSACTIONS : Nat := 50

/-- State of the `useTransactions` composable: the reactive
`recentTransactions` list and the copy persisted to `localStorage`
by `saveRecentTransactions`. -/
structure TransactionsState (α : Type) where
  recentTransactions : List α
  stored : List α
  deriving Repr, DecidableEq

/-- Embeds `addTransactionToHistory` of `src/composables/useTransactions.js`:
unshift the new transaction, truncate to `MAX_TRANSACTIONS` when the
length exceeds the bound, then persist. -/
def addTransactionToHistory (st : TransactionsState α) (tx : α) : TransactionsState α :=
  let l := tx :: st.recentTransactions
  let l := if l.length > MAX_TRANSACTIONS then l.take MAX_TRANSACTIONS else l
  { recentTransactions := l, stored := l }

/-- Embeds `removeTransaction` of `src/composables/useTransactions.js`: for an
in-range index, rebuild the list without the element at that index and
persist; otherwise do nothing.  The index is an `Int` because the
JavaScript caller may pass a negative number. -/
def removeTransaction (st : TransactionsState α) (index : Int) : TransactionsState α :=
  if 0 ≤ index ∧ index < (st.recentTransactions.length : Int) then
    let l := st.recentTransactions.take index.toNat ++
             st.recentTransactions.drop (index.toNat + 1)
    { recentTransactions := l, stored := l }
  else st

end UseTransactions

namespace TokenAllowanceTracker

/-- Modelled from the spec: a per-(address, denom) allowance record of
`tokenAllowance.js` (not in the available source tree) — the cached
cumulative `amount` and the ordered sequence of distribution
timestamps. -/
structure TokenRecord where
  amount : Nat
  timestamps : List Nat
  deriving Repr, DecidableEq

/-- Modelled from the spec: the tracker's in-memory state, a mapping
from address to a mapping from token denomination to its record. -/
abbrev TState := List (String × List (String × TokenRecord))

/-- Modelled from the spec: the distribution-amount configuration, a
list of `(denom, amount-string)` pairs. -/
abbrev AmountConfig := List (String × String)

/-- Decimal-string parsing as performed by JavaScript `BigInt(s)` on the
non-negative decimal amount strings of the configuration. -/
def parseDec (s : String) : Nat :=
  s.data.foldl (fun n c => 10 * n + (c.toNat - 48)) 0

/-- Modelled from the spec: `getSingleAmount(denom)` returns the
configured single-distribution amount, or `0` for an unconfigured
denomination (a sentinel, not an error). -/
def getSingleAmount (cfg : AmountConfig) (denom : String) : Nat :=
  ((lookupList cfg denom).map parseDec).getD 0

/-- Modelled from the spec: the constructor's `initializeLimits` — for
each configured denomination, parse its amount string as an
arbitrary-precision integer and store `dailyLimit[denom] = 10 × amount`. -/
def initializeLimits (cfg : AmountConfig) : List (String × Nat) :=
  cfg.map (fun p => (p.1, 10 * parseDec p.2))

/-- The daily limit consulted by the allowance check: the entry of the
constructed limit table, `0` for an unconfigured denomination. -/
def dailyLimitOf (cfg : AmountConfig) (denom : String) : Nat :=
  (lookupList (initializeLimits cfg) denom).getD 0

/-- The stored timestamp sequence of an (address, denom) pair, empty
when the address or the denomination has no record. -/
def recordTimestamps (st : TState) (address denom : String) : List Nat :=
  match lookupList st address with
  | none => []
  | some toks =>
    match lookupList toks denom with
    | none => []
    | some r => r.timestamps

/-- Modelled from the spec: the per-denomination available quota of
`checkAllowance` — `max(0, dailyLimit[denom] − used)` where
`used = count(valid timestamps) × singleAmount(denom)` (the `max` is
the `Nat` truncated subtraction). -/
def availableFor (cfg : AmountConfig) (st : TState) (now : Nat)
    (address denom : String) : Nat :=
  dailyLimitOf cfg denom -
    (validOf now (recordTimestamps st address denom)).length * getSingleAmount cfg denom

/-- Modelled from the spec: the result of `checkAllowance` — the overall
verdict and the per-denomination availability report. -/
structure AllowanceResult where
  allowed : Bool
  available : List (String × Nat)
  deriving Repr, DecidableEq

/-- Modelled from the spec: `checkAllowance(address, requestedTokens)`
walks the requested denominations, computes each one's available quota,
reports it, and conjoins `requested ≤ available` across all of them
into the overall `allowed` verdict. -/
def checkAllowance (cfg : AmountConfig) (st : TState) (now : Nat) (address : String)
    (requested : List (String × Nat)) : AllowanceResult :=
  requested.foldl
    (fun acc p =>
      let avail := availableFor cfg st now address p.1
      { allowed := acc.allowed && decide (p.2 ≤ avail),
        available := acc.available ++ [(p.1, avail)] })
    { allowed := true, available := [] }

/-- Modelled from the spec: record one distributed denomination —
append `now` to the (address, denom) timestamps (creating the records
if absent) and recompute `amount = timestamps.length × singleAmount`. -/
def updateOne (cfg : AmountConfig) (now : Nat) (address denom : String)
    (st : TState) : TState :=
  let toks := (lookupList st address).getD []
  let r := (lookupList toks denom).getD ⟨0, []⟩
  let ts := r.timestamps ++ [now]
  setList st address
    (setList toks denom ⟨ts.length * getSingleAmount cfg denom, ts⟩)

/-- Modelled from the spec: `updateAllowance(address, distributedTokens)`
records every distributed denomination in turn (the amount strings of
the argument are not consulted; the recompute uses the configured
single amount). -/
def updateAllowance (cfg : AmountConfig) (st : TState) (now : Nat) (address : String)
    (distributed : List (String × String)) : TState :=
  distributed.foldl (fun s p => updateOne cfg now address p.1 s) st

/-- One denomination's compaction step: keep the valid timestamps and
recompute the cached amount, or drop the record when none remain. -/
def pruneRecord (cfg : AmountConfig) (now : Nat) (d : String × TokenRecord) :
    Option (String × TokenRecord) :=
  if (validOf now d.2.timestamps).isEmpty then none
  else some (d.1,
    (⟨(validOf now d.2.timestamps).length * getSingleAmount cfg d.1,
      validOf now d.2.timestamps⟩ : TokenRecord))

/-- One address's compaction step: prune every denomination's record and
drop the address when no records remain. -/
def pruneAddress (cfg : AmountConfig) (now : Nat)
    (a : String × List (String × TokenRecord)) :
    Option (String × List (String × TokenRecord)) :=
  if (a.2.filterMap (pruneRecord cfg now)).isEmpty then none
  else some (a.1, a.2.filterMap (pruneRecord cfg now))

/-- Modelled from the spec: the tracker's `cleanup()` — for every address
and denom, drop expired timestamps and recompute `amount`; drop a denom
whose sequence becomes empty and an address left with no denoms. -/
def cleanup (cfg : AmountConfig) (st : TState) (now : Nat) : TState :=
  st.filterMap (pruneAddress cfg now)

/-- Modelled from the spec: the serialized form of one allowance record —
the amount as a decimal string (never a native numeric), the timestamps
as integers. -/
structure SavedRecord where
  amount : String
  timestamps : List Nat
  deriving Repr, DecidableEq

/-- Modelled from the spec: `saveData()`'s serialization of the
allowances mapping as an ordered list of
`[address, [[denom, {amount, timestamps}], …]]` entries. -/
def serializeAllowances (st : TState) : List (String × List (String × SavedRecord)) :=
  st.map (fun a =>
    (a.1, a.2.map (fun d => (d.1, ⟨Nat.repr d.2.amount, d.2.timestamps⟩))))

/-- Modelled from the spec: rebuilding the in-memory mapping from a
parsed snapshot, parsing each amount string back to an integer. -/
def deserializeAllowances (d : List (String × List (String × SavedRecord))) : TState :=
  d.map (fun a =>
    (a.1, a.2.map (fun p => (p.1, ⟨parseDec p.2.amount, p.2.timestamps⟩))))

/-- Modelled from the spec: loading the persisted snapshot — `none`
models a missing file, `some none` content that fails to parse as JSON;
both failure conditions yield the empty store. -/
def loadAllowances (file : Option (Option (List (String × List (String × SavedRecord))))) :
    TState :=
  match file with
  | none => []
  | some none => []
  | some (some d) => deserializeAllowances d

/-- Modelled from the spec: the tracker's `saveData()`; the boolean
argument models whether the filesystem write succeeds.  On failure
nothing is written and no error propagates; the in-memory state is
returned unchanged either way. -/
def saveDataT (st : TState) (writeOk : Bool) :
    Option (List (String × List (String × SavedRecord))) × TState :=
  if writeOk then (some (serializeAllowances st), st) else (none, st)

/-- The timestamp shape of a tracker state: addresses, denominations and
timestamp sequences, with the cached amounts erased.  Two states with
the same shape have the same keys, the same timestamp counts and the
same recomputed amounts. -/
def tsShape (st : TState) : List (String × List (String × List Nat)) :=
  st.map (fun a => (a.1, a.2.map (fun d => (d.1, d.2.timestamps))))

end TokenAllowanceTracker

theorem take_append_drop_succ {α : Type} (l : List α) (i : Nat) :
    l.take i ++ l.drop (i + 1) = l.eraseIdx i := by
  induction l generalizing i with
  | nil => simp
  | cons x xs ih =>
    cases i with
    | zero => simp
    | succ j => simpa using ih j

/-- C9: every call to `addTransactionToHistory` leaves the list with at
most `MAX_TRANSACTIONS = 50` entries, puts the transaction just added at
index 0, and when the list was already at the bound the tail beyond
index 49 is discarded, keeping only the first 49 previous entries. -/
theorem addTransactionToHistory_spec {α : Type} (st : UseTransactions.TransactionsState α)
    (tx : α) :
    (UseTransactions.addTransactionToHistory st tx).recentTransactions.length ≤
      UseTransactions.MAX_TRANSACTIONS ∧
    (UseTransactions.addTransactionToHistory st tx).recentTransactions.head? = some tx ∧
    (UseTransactions.MAX_TRANSACTIONS ≤ st.recentTransactions.length →
      (UseTransactions.addTransactionToHistory st tx).recentTransactions =
        tx :: st.recentTransactions.take (UseTransactions.MAX_TRANSACTIONS - 1)) := by
  unfold UseTransactions.addTransactionToHistory
  simp only [UseTransactions.MAX_TRANSACTIONS, List.length_cons, gt_iff_lt]
  by_cases h : 50 < st.recentTransactions.length + 1
  · simp only [h, if_true]
    refine ⟨?_, ?_, ?_⟩
    · simp only [List.take_succ_cons, List.length_cons, List.length_take]
      omega
    · simp [List.take_succ_cons]
    · intro _
      simp [List.take_succ_cons]
  · simp only [h, if_false]
    refine ⟨by simp only [List.length_cons]; omega, rfl, ?_⟩
    intro hlen
    exact absurd hlen (by omega)

/-- C9 witness at a concrete full list. -/
theorem addTransactionToHistory_spec_witness :
    (UseTransactions.addTransactionToHistory
        (⟨List.replicate 50 0, List.replicate 50 0⟩ :
          UseTransactions.TransactionsState Nat) 7).recentTransactions.length ≤
      UseTransactions.MAX_TRANSACTIONS ∧
    (UseTransactions.addTransactionToHistory
        (⟨List.replicate 50 0, List.replicate 50 0⟩ :
          UseTransactions.TransactionsState Nat) 7).recentTransactions.head? = some 7 ∧
    (UseTransactions.MAX_TRANSACTIONS ≤ (List.replicate 50 (0 : Nat)).length →
      (UseTransactions.addTransactionToHistory
          (⟨List.replicate 50 0, List.replicate 50 0⟩ :
            UseTransactions.TransactionsState Nat) 7).recentTransactions =
        7 :: (List.replicate 50 (0 : Nat)).take (UseTransactions.MAX_TRANSACTIONS - 1)) :=
  addTransactionToHistory_spec
    (⟨List.replicate 50 0, List.replicate 50 0⟩ : UseTransactions.TransactionsState Nat) 7

/-- C10: `removeTransaction` leaves the state (both the reactive list and
the persisted copy) unchanged for an out-of-range index, and for an
in-range index removes exactly the element at that index, preserving the
relative order of the rest (`List.eraseIdx`) in both copies. -/
theorem removeTransaction_spec {α : Type} (st : UseTransactions.TransactionsState α)
    (index : Int) :
    ((index < 0 ∨ (st.recentTransactions.length : Int) ≤ index) →
      UseTransactions.removeTransaction st index = st) ∧
    ((0 ≤ index ∧ index < (st.recentTransactions.length : Int)) →
      (UseTransactions.removeTransaction st index).recentTransactions =
        st.recentTransactions.eraseIdx index.toNat ∧
      (UseTransactions.removeTransaction st index).stored =
        st.recentTransactions.eraseIdx index.toNat) := by
  constructor
  · intro h
    unfold UseTransactions.removeTransaction
    have : ¬ (0 ≤ index ∧ index < (st.recentTransactions.length : Int)) := by omega
    simp [this]
  · intro h
    unfold UseTransactions.removeTransaction
    simp only [h, and_self, if_true]
    rw [take_append_drop_succ]

/-- C10 witness at a concrete three-element list and index 1. -/
theorem removeTransaction_spec_witness :
    (((1 : Int) < 0 ∨ (([10, 20, 30] : List Nat).length : Int) ≤ 1) →
      UseTransactions.removeTransaction
        (⟨[10, 20, 30], [10, 20, 30]⟩ : UseTransactions.TransactionsState Nat) 1 =
        ⟨[10, 20, 30], [10, 20, 30]⟩) ∧
    (((0 : Int) ≤ 1 ∧ (1 : Int) < (([10, 20, 30] : List Nat).length : Int)) →
      (UseTransactions.removeTransaction
          (⟨[10, 20, 30], [10, 20, 30]⟩ : UseTransactions.TransactionsState Nat)
          1).recentTransactions = ([10, 20, 30] : List Nat).eraseIdx (1 : Int).toNat ∧
      (UseTransactions.removeTransaction
          (⟨[10, 20, 30], [10, 20, 30]⟩ : UseTransactions.TransactionsState Nat)
          1).stored = ([10, 20, 30] : List Nat).eraseIdx (1 : Int).toNat) :=
  removeTransaction_spec
    (⟨[10, 20, 30], [10, 20, 30]⟩ : UseTransactions.TransactionsState Nat) 1

/-- Helper: the minimum of a nonempty `Nat` list is one of its elements. -/
theorem min?_mem_nat {l : List Nat} {a : Nat} (h : l.min? = some a) : a ∈ l :=
  List.min?_mem (fun a b => by rw [Nat.min_def]; split <;> simp) h

/-- C2: `checkLimit(key, limit, label)` returns `true` iff the number of
stored timestamps `t` with `t ≥ now − 24h` (an absent key counting as
the empty sequence) is strictly below `limit`, and the call leaves the
stored state unchanged — expired timestamps are not pruned by the
check. -/
theorem checkLimit_spec (st : FrequencyChecker.CState) (now : Nat) (key : String)
    (limit : Nat) :
    ((FrequencyChecker.checkLimitCall st now key limit).1 = true ↔
      ((lookupList st key).getD []).countP (fun t => now ≤ t + windowMs) < limit) ∧
    (FrequencyChecker.checkLimitCall st now key limit).2 = st := by
  constructor
  · simp only [FrequencyChecker.checkLimitCall, FrequencyChecker.checkLimit, validOf,
      decide_eq_true_eq, List.countP_eq_length_filter]
    exact Iff.rfl
  · rfl

/-- C2 witness: a store holding one fresh and one expired timestamp under
one key, checked against limit 2. -/
theorem checkLimit_spec_witness :
    ((FrequencyChecker.checkLimitCall [("k", [90000000, 1000])] 90000000 "k" 2).1 = true ↔
      ((lookupList [("k", [90000000, 1000])] "k").getD []).countP
        (fun t => 90000000 ≤ t + windowMs) < 2) ∧
    (FrequencyChecker.checkLimitCall [("k", [90000000, 1000])] 90000000 "k" 2).2 =
      [("k", [90000000, 1000])] :=
  checkLimit_spec [("k", [90000000, 1000])] 90000000 "k" 2

/-- C8: `getRemainingTime(address, network)` returns `0` when the
identity has no valid (non-expired) timestamps; otherwise it returns
`windowLength − (now − oldestValidTimestamp)`; and the result is never
negative. -/
theorem getRemainingTime_spec (st : FrequencyChecker.CState) (now : Nat)
    (address network : String) :
    ((validOf now ((lookupList st (FrequencyChecker.addrKey address network)).getD []))
        = [] → FrequencyChecker.getRemainingTime st now address network = 0) ∧
    (∀ oldest,
      (validOf now ((lookupList st (FrequencyChecker.addrKey address network)).getD [])).min?
          = some oldest →
      FrequencyChecker.getRemainingTime st now address network =
        (windowMs : Int) - ((now : Int) - (oldest : Int))) ∧
    0 ≤ FrequencyChecker.getRemainingTime st now address network := by
  refine ⟨?_, ?_, ?_⟩
  · intro h
    unfold FrequencyChecker.getRemainingTime
    rw [h]
    rfl
  · intro oldest h
    have hmem : oldest ∈
        validOf now ((lookupList st (FrequencyChecker.addrKey address network)).getD []) :=
      min?_mem_nat h
    have hvalid : now ≤ oldest + windowMs := by
      have := (List.mem_filter.mp hmem).2
      simpa [isValid] using this
    unfold FrequencyChecker.getRemainingTime
    rw [h]
    show max 0 ((windowMs : Int) - ((now : Int) - (oldest : Int))) = _
    have h0 : (0 : Int) ≤ (windowMs : Int) - ((now : Int) - (oldest : Int)) := by
      omega
    exact max_eq_right h0
  · unfold FrequencyChecker.getRemainingTime
    cases hm : (validOf now
        ((lookupList st (FrequencyChecker.addrKey address network)).getD [])).min? with
    | none => simp
    | some oldest => simp

/-- C8 witness: one identity with a single valid timestamp recorded
23 hours before `now`. -/
theorem getRemainingTime_spec_witness :
    ((validOf 86400000
        ((lookupList [(FrequencyChecker.addrKey "cosmos1test" "cosmos", [3600000])]
          (FrequencyChecker.addrKey "cosmos1test" "cosmos")).getD [])) = [] →
      FrequencyChecker.getRemainingTime
        [(FrequencyChecker.addrKey "cosmos1test" "cosmos", [3600000])] 86400000
        "cosmos1test" "cosmos" = 0) ∧
    (∀ oldest,
      (validOf 86400000
        ((lookupList [(FrequencyChecker.addrKey "cosmos1test" "cosmos", [3600000])]
          (FrequencyChecker.addrKey "cosmos1test" "cosmos")).getD [])).min?
          = some oldest →
      FrequencyChecker.getRemainingTime
        [(FrequencyChecker.addrKey "cosmos1test" "cosmos", [3600000])] 86400000
        "cosmos1test" "cosmos" =
        (windowMs : Int) - ((86400000 : Int) - (oldest : Int))) ∧
    0 ≤ FrequencyChecker.getRemainingTime
        [(FrequencyChecker.addrKey "cosmos1test" "cosmos", [3600000])] 86400000
        "cosmos1test" "cosmos" :=
  getRemainingTime_spec [(FrequencyChecker.addrKey "cosmos1test" "cosmos", [3600000])]
    86400000 "cosmos1test" "cosmos"

/-- Helper: looking up in a value-mapped association list. -/
theorem lookupList_map_snd {α β : Type} (f : String → α → β) (k : String)
    (m : List (String × α)) :
    lookupList (m.map (fun p => (p.1, f p.1 p.2))) k = (lookupList m k).map (f k) := by
  induction m with
  | nil => rfl
  | cons p rest ih =>
    by_cases h : (p.1 == k) = true
    · have hk : p.1 = k := by simpa using h
      simp [lookupList, List.find?_cons_of_pos, h, hk]
    · simp only [lookupList, List.map_cons] at ih ⊢
      rw [List.find?_cons_of_neg _ (by simpa using h),
        List.find?_cons_of_neg _ (by simpa using h)]
      exact ih

/-- C4: for a configured denomination with amount string `a`, the
constructed daily-limit table holds exactly `10 × parse(a)`; the
amount string `"0"` parses to `0` (a zero daily limit, i.e. disabled);
and an unconfigured denomination has single amount `0`. -/
theorem initializeLimits_spec (cfg : TokenAllowanceTracker.AmountConfig)
    (denom : String) :
    (∀ a, lookupList cfg denom = some a →
      lookupList (TokenAllowanceTracker.initializeLimits cfg) denom =
        some (10 * TokenAllowanceTracker.parseDec a) ∧
      TokenAllowanceTracker.dailyLimitOf cfg denom =
        10 * TokenAllowanceTracker.parseDec a) ∧
    (lookupList cfg denom = none →
      TokenAllowanceTracker.getSingleAmount cfg denom = 0) ∧
    TokenAllowanceTracker.parseDec "0" = 0 := by
  refine ⟨?_, ?_, ?_⟩
  · intro a h
    have hm : lookupList (TokenAllowanceTracker.initializeLimits cfg) denom =
        some (10 * TokenAllowanceTracker.parseDec a) := by
      unfold TokenAllowanceTracker.initializeLimits
      rw [lookupList_map_snd (fun _ s => 10 * TokenAllowanceTracker.parseDec s) denom cfg, h]
      rfl
    exact ⟨hm, by unfold TokenAllowanceTracker.dailyLimitOf; rw [hm]; rfl⟩
  · intro h
    unfold TokenAllowanceTracker.getSingleAmount
    rw [h]
    rfl
  · decide

/-- C4 witness: the repository test configuration entry
`{ denom: 'wbtc', amount: '100000000' }`, whose daily limit is
`1000000000`. -/
theorem initializeLimits_spec_witness :
    ((∀ a, lookupList [("wbtc", "100000000")] "wbtc" = some a →
      lookupList (TokenAllowanceTracker.initializeLimits [("wbtc", "100000000")]) "wbtc" =
        some (10 * TokenAllowanceTracker.parseDec a) ∧
      TokenAllowanceTracker.dailyLimitOf [("wbtc", "100000000")] "wbtc" =
        10 * TokenAllowanceTracker.parseDec a) ∧
    (lookupList [("wbtc", "100000000")] "wbtc" = none →
      TokenAllowanceTracker.getSingleAmount [("wbtc", "100000000")] "wbtc" = 0) ∧
    TokenAllowanceTracker.parseDec "0" = 0) ∧
    TokenAllowanceTracker.dailyLimitOf [("wbtc", "100000000")] "wbtc" = 1000000000 :=
  ⟨initializeLimits_spec [("wbtc", "100000000")] "wbtc",
   ((initializeLimits_spec [("wbtc", "100000000")] "wbtc").1 "100000000" rfl).2.trans
     (by decide)⟩

/-- Helper: closed form of the `checkAllowance` fold for any
accumulator. -/
theorem checkAllowance_foldl (cfg : TokenAllowanceTracker.AmountConfig)
    (st : TokenAllowanceTracker.TState) (now : Nat) (address : String)
    (requested : List (String × Nat)) (acc : TokenAllowanceTracker.AllowanceResult) :
    requested.foldl
      (fun acc p =>
        let avail := TokenAllowanceTracker.availableFor cfg st now address p.1
        { allowed := acc.allowed && decide (p.2 ≤ avail),
          available := acc.available ++ [(p.1, avail)] }) acc =
    { allowed := acc.allowed && requested.all
        (fun p => decide (p.2 ≤ TokenAllowanceTracker.availableFor cfg st now address p.1)),
      available := acc.available ++ requested.map
        (fun p => (p.1, TokenAllowanceTracker.availableFor cfg st now address p.1)) } := by
  induction requested generalizing acc with
  | nil => simp
  | cons p rest ih =>
    simp only [List.foldl_cons, List.all_cons, List.map_cons]
    rw [ih]
    simp [Bool.and_assoc]

/-- C1: `checkAllowance(address, requestedTokens)` is allowed exactly when
every requested denomination's amount fits in its available quota;
availability is reported per denomination even when another one blocks
the request; available is `max(0, dailyLimit − used)`; and an address
with no prior history has the full daily limit available. -/
theorem checkAllowance_spec (cfg : TokenAllowanceTracker.AmountConfig)
    (st : TokenAllowanceTracker.TState) (now : Nat) (address : String)
    (requested : List (String × Nat)) :
    ((TokenAllowanceTracker.checkAllowance cfg st now address requested).allowed = true ↔
      ∀ p ∈ requested, p.2 ≤ TokenAllowanceTracker.availableFor cfg st now address p.1) ∧
    ((TokenAllowanceTracker.checkAllowance cfg st now address requested).available =
      requested.map
        (fun p => (p.1, TokenAllowanceTracker.availableFor cfg st now address p.1))) ∧
    (∀ denom, (TokenAllowanceTracker.availableFor cfg st now address denom : Int) =
      max 0 ((TokenAllowanceTracker.dailyLimitOf cfg denom : Int) -
        ((validOf now (TokenAllowanceTracker.recordTimestamps st address denom)).length : Int) *
          (TokenAllowanceTracker.getSingleAmount cfg denom : Int))) ∧
    (lookupList st address = none →
      ∀ denom, TokenAllowanceTracker.availableFor cfg st now address denom =
        TokenAllowanceTracker.dailyLimitOf cfg denom) := by
  refine ⟨?_, ?_, ?_, ?_⟩
  · unfold TokenAllowanceTracker.checkAllowance
    rw [checkAllowance_foldl]
    simp [List.all_eq_true]
  · unfold TokenAllowanceTracker.checkAllowance
    rw [checkAllowance_foldl]
    simp
  · intro denom
    unfold TokenAllowanceTracker.availableFor
    omega
  · intro h denom
    unfold TokenAllowanceTracker.availableFor TokenAllowanceTracker.recordTimestamps
    rw [h]
    simp [validOf]

/-- C1 witness: a fresh address requesting one configured token. -/
theorem checkAllowance_spec_witness :
    ((TokenAllowanceTracker.checkAllowance [("wbtc", "2")] [] 0 "a" [("wbtc", 1)]).allowed
        = true ↔
      ∀ p ∈ [(("wbtc" : String), (1 : Nat))],
        p.2 ≤ TokenAllowanceTracker.availableFor [("wbtc", "2")] [] 0 "a" p.1) ∧
    ((TokenAllowanceTracker.checkAllowance [("wbtc", "2")] [] 0 "a" [("wbtc", 1)]).available =
      [(("wbtc" : String), (1 : Nat))].map
        (fun p => (p.1, TokenAllowanceTracker.availableFor [("wbtc", "2")] [] 0 "a" p.1))) ∧
    (∀ denom, (TokenAllowanceTracker.availableFor [("wbtc", "2")] [] 0 "a" denom : Int) =
      max 0 ((TokenAllowanceTracker.dailyLimitOf [("wbtc", "2")] denom : Int) -
        ((validOf 0 (TokenAllowanceTracker.recordTimestamps [] "a" denom)).length : Int) *
          (TokenAllowanceTracker.getSingleAmount [("wbtc", "2")] denom : Int))) ∧
    (lookupList ([] : TokenAllowanceTracker.TState) "a" = none →
      ∀ denom, TokenAllowanceTracker.availableFor [("wbtc", "2")] [] 0 "a" denom =
        TokenAllowanceTracker.dailyLimitOf [("wbtc", "2")] denom) :=
  checkAllowance_spec [("wbtc", "2")] [] 0 "a" [("wbtc", 1)]

/-- C3: every (address, denom) record present after the tracker's
`cleanup()` has its cached `amount` equal to
`timestamps.length × singleAmount(denom)` — for any starting state,
hence in particular for every state reached by `updateAllowance` and
`cleanup` calls. -/
theorem cleanup_amount_invariant (cfg : TokenAllowanceTracker.AmountConfig)
    (st : TokenAllowanceTracker.TState) (now : Nat) (address : String)
    (toks : List (String × TokenAllowanceTracker.TokenRecord)) (denom : String)
    (r : TokenAllowanceTracker.TokenRecord)
    (ha : (address, toks) ∈ TokenAllowanceTracker.cleanup cfg st now)
    (hd : (denom, r) ∈ toks) :
    r.amount = r.timestamps.length * TokenAllowanceTracker.getSingleAmount cfg denom := by
  unfold TokenAllowanceTracker.cleanup at ha
  rw [List.mem_filterMap] at ha
  obtain ⟨a, -, hfa⟩ := ha
  unfold TokenAllowanceTracker.pruneAddress at hfa
  by_cases he : (a.2.filterMap (TokenAllowanceTracker.pruneRecord cfg now)).isEmpty
  · rw [if_pos he] at hfa
    exact absurd hfa (by simp)
  · rw [if_neg he] at hfa
    obtain ⟨-, htoks⟩ := Prod.mk.injEq .. ▸ Option.some.injEq .. ▸ hfa
    subst htoks
    rw [List.mem_filterMap] at hd
    obtain ⟨d, -, hpd⟩ := hd
    unfold TokenAllowanceTracker.pruneRecord at hpd
    by_cases hv : (validOf now d.2.timestamps).isEmpty
    · rw [if_pos hv] at hpd
      exact absurd hpd (by simp)
    · rw [if_neg hv] at hpd
      obtain ⟨hdenom, hr⟩ := Prod.mk.injEq .. ▸ Option.some.injEq .. ▸ hpd
      subst hdenom
      subst hr
      rfl

/-- C3 witness: one address, one denomination, a stale cached amount that
`cleanup` recomputes. -/
theorem cleanup_amount_invariant_witness :
    (⟨2, [0]⟩ : TokenAllowanceTracker.TokenRecord).amount =
      (⟨2, [0]⟩ : TokenAllowanceTracker.TokenRecord).timestamps.length *
        TokenAllowanceTracker.getSingleAmount [("w", "2")] "w" :=
  cleanup_amount_invariant [("w", "2")] [("a", [("w", ⟨5, [0]⟩)])] 0 "a"
    [("w", ⟨2, [0]⟩)] "w" ⟨2, [0]⟩ (by decide) (by decide)
/-- Helper: window filtering is idempotent. -/
theorem validOf_validOf (now : Nat) (ts : List Nat) :
    validOf now (validOf now ts) = validOf now ts := by
  simp [validOf, List.filter_filter]

/-- Helper: lookup on a cons cell. -/
theorem lookupList_cons {α : Type} (p : String × α) (rest : List (String × α))
    (k : String) :
    lookupList (p :: rest) k = if p.1 == k then some p.2 else lookupList rest k := by
  unfold lookupList
  by_cases h : (p.1 == k) = true
  · rw [List.find?_cons_of_pos (p := fun q => q.1 == k) rest h, if_pos h]
    rfl
  · rw [List.find?_cons_of_neg (p := fun q => q.1 == k) rest h, if_neg h]

/-- Helper: lookup misses when the key is absent. -/
theorem lookupList_eq_none {α : Type} (m : List (String × α)) (k : String)
    (h : k ∉ m.map Prod.fst) : lookupList m k = none := by
  induction m with
  | nil => rfl
  | cons p rest ih =>
    simp only [List.map_cons, List.mem_cons] at h
    rw [lookupList_cons, if_neg (by simp only [beq_iff_eq]; exact fun he => h (Or.inl he.symm))]
    exact ih (fun hm => h (Or.inr hm))

/-- Helper: compaction never invents keys. -/
theorem cleanupC_keys_subset (st : FrequencyChecker.CState) (now : Nat) (k : String)
    (h : k ∈ (FrequencyChecker.cleanup st now).map Prod.fst) : k ∈ st.map Prod.fst := by
  rw [List.mem_map] at h
  obtain ⟨q, hq, hk⟩ := h
  unfold FrequencyChecker.cleanup at hq
  rw [List.mem_filterMap] at hq
  obtain ⟨p, hp, hfp⟩ := hq
  unfold FrequencyChecker.pruneEntry at hfp
  by_cases he : (validOf now p.2).isEmpty
  · rw [if_pos he] at hfp
    cases hfp
  · rw [if_neg he] at hfp
    have hqp : q = (p.1, validOf now p.2) := (Option.some.inj hfp).symm
    subst hqp
    subst hk
    exact List.mem_map.mpr ⟨p, hp, rfl⟩

/-- Helper: the frequency store's compaction is idempotent. -/
theorem cleanupC_idem (st : FrequencyChecker.CState) (now : Nat) :
    FrequencyChecker.cleanup (FrequencyChecker.cleanup st now) now =
      FrequencyChecker.cleanup st now := by
  induction st with
  | nil => rfl
  | cons p rest ih =>
    simp only [FrequencyChecker.cleanup, List.filterMap_cons] at ih ⊢
    by_cases h : (validOf now p.2).isEmpty
    · simp only [FrequencyChecker.pruneEntry, h, if_true]
      exact ih
    · have h' : (validOf now p.2).isEmpty = false := by simpa using h
      simp only [FrequencyChecker.pruneEntry, h', Bool.false_eq_true, if_false,
        List.filterMap_cons, validOf_validOf]
      rw [ih]

/-- Helper: compaction's effect on each key of the frequency store. -/
theorem cleanupC_lookup (st : FrequencyChecker.CState) (now : Nat)
    (hnd : (st.map Prod.fst).Nodup) (key : String) :
    lookupList (FrequencyChecker.cleanup st now) key =
      (lookupList st key).bind (fun ts =>
        if (validOf now ts).isEmpty then none else some (validOf now ts)) := by
  induction st with
  | nil => rfl
  | cons p rest ih =>
    have hnd1 : p.1 ∉ rest.map Prod.fst := by
      rw [List.map_cons, List.nodup_cons] at hnd
      exact hnd.1
    have hnd2 : (rest.map Prod.fst).Nodup := by
      rw [List.map_cons, List.nodup_cons] at hnd
      exact hnd.2
    rw [lookupList_cons]
    by_cases hk : (p.1 == key) = true
    · have hkeq : p.1 = key := by simpa using hk
      rw [if_pos hk]
      by_cases h : (validOf now p.2).isEmpty
      · simp only [FrequencyChecker.cleanup, List.filterMap_cons,
          FrequencyChecker.pruneEntry, h, if_true, Option.some_bind]
        exact lookupList_eq_none _ key
          (fun hm => (hkeq ▸ hnd1) (cleanupC_keys_subset rest now key hm))
      · have h' : (validOf now p.2).isEmpty = false := by simpa using h
        simp only [FrequencyChecker.cleanup, List.filterMap_cons,
          FrequencyChecker.pruneEntry, h', Bool.false_eq_true, if_false,
          Option.some_bind]
        rw [lookupList_cons, if_pos hk]
    · rw [if_neg hk]
      by_cases h : (validOf now p.2).isEmpty
      · simp only [FrequencyChecker.cleanup, List.filterMap_cons,
          FrequencyChecker.pruneEntry, h, if_true]
        exact ih hnd2
      · have h' : (validOf now p.2).isEmpty = false := by simpa using h
        simp only [FrequencyChecker.cleanup, List.filterMap_cons,
          FrequencyChecker.pruneEntry, h', Bool.false_eq_true, if_false]
        rw [lookupList_cons, if_neg hk]
        exact ih hnd2

/-- Helper: an already-pruned allowance record is a fixed point of the
pruning step. -/
theorem pruneRecord_pruned (cfg : TokenAllowanceTracker.AmountConfig) (now : Nat)
    (d e : String × TokenAllowanceTracker.TokenRecord)
    (h : TokenAllowanceTracker.pruneRecord cfg now d = some e) :
    TokenAllowanceTracker.pruneRecord cfg now e = some e := by
  unfold TokenAllowanceTracker.pruneRecord at h ⊢
  by_cases hv : (validOf now d.2.timestamps).isEmpty
  · rw [if_pos hv] at h
    cases h
  · rw [if_neg hv] at h
    have he : e = (d.1,
        (⟨(validOf now d.2.timestamps).length * TokenAllowanceTracker.getSingleAmount cfg d.1,
          validOf now d.2.timestamps⟩ : TokenAllowanceTracker.TokenRecord)) :=
      (Option.some.inj h).symm
    subst he
    simp only [validOf_validOf]
    rw [if_neg hv]

/-- Helper: pruning an already-pruned record list changes nothing. -/
theorem filterMap_pruneRecord_idem (cfg : TokenAllowanceTracker.AmountConfig) (now : Nat)
    (toks : List (String × TokenAllowanceTracker.TokenRecord)) :
    (toks.filterMap (TokenAllowanceTracker.pruneRecord cfg now)).filterMap
      (TokenAllowanceTracker.pruneRecord cfg now) =
      toks.filterMap (TokenAllowanceTracker.pruneRecord cfg now) := by
  induction toks with
  | nil => rfl
  | cons d rest ih =>
    rw [List.filterMap_cons]
    cases hd : TokenAllowanceTracker.pruneRecord cfg now d with
    | none => exact ih
    | some e =>
      rw [List.filterMap_cons, pruneRecord_pruned cfg now d e hd, ih]

/-- Helper: the allowance tracker's compaction is idempotent. -/
theorem cleanupT_idem (cfg : TokenAllowanceTracker.AmountConfig)
    (st : TokenAllowanceTracker.TState) (now : Nat) :
    TokenAllowanceTracker.cleanup cfg (TokenAllowanceTracker.cleanup cfg st now) now =
      TokenAllowanceTracker.cleanup cfg st now := by
  induction st with
  | nil => rfl
  | cons a rest ih =>
    simp only [TokenAllowanceTracker.cleanup, List.filterMap_cons] at ih ⊢
    cases hpa : TokenAllowanceTracker.pruneAddress cfg now a with
    | none => exact ih
    | some b =>
      have hne : (a.2.filterMap (TokenAllowanceTracker.pruneRecord cfg now)).isEmpty
          = false := by
        unfold TokenAllowanceTracker.pruneAddress at hpa
        by_cases h : (a.2.filterMap (TokenAllowanceTracker.pruneRecord cfg now)).isEmpty
        · rw [if_pos h] at hpa
          cases hpa
        · simpa using h
      have hb : b = (a.1, a.2.filterMap (TokenAllowanceTracker.pruneRecord cfg now)) := by
        unfold TokenAllowanceTracker.pruneAddress at hpa
        rw [if_neg (by simp [hne])] at hpa
        exact (Option.some.inj hpa).symm
      subst hb
      rw [List.filterMap_cons]
      have hfix : TokenAllowanceTracker.pruneAddress cfg now
          (a.1, a.2.filterMap (TokenAllowanceTracker.pruneRecord cfg now)) =
          some (a.1, a.2.filterMap (TokenAllowanceTracker.pruneRecord cfg now)) := by
        unfold TokenAllowanceTracker.pruneAddress
        simp only [filterMap_pruneRecord_idem]
        rw [if_neg (by simp [hne])]
      rw [hfix, ih]

/-- C7: both stores' `cleanup()` removes exactly the timestamps older
than the 24-hour window (for every key, the surviving sequence is the
window-filtered one, and a key whose sequence becomes empty is
dropped), and `cleanup()` is idempotent — a second immediate run
changes nothing. -/
theorem cleanup_spec (st : FrequencyChecker.CState) (now : Nat)
    (cfg : TokenAllowanceTracker.AmountConfig) (tst : TokenAllowanceTracker.TState) :
    FrequencyChecker.cleanup (FrequencyChecker.cleanup st now) now =
      FrequencyChecker.cleanup st now ∧
    ((st.map Prod.fst).Nodup → ∀ key,
      lookupList (FrequencyChecker.cleanup st now) key =
        (lookupList st key).bind (fun ts =>
          if (validOf now ts).isEmpty then none else some (validOf now ts))) ∧
    TokenAllowanceTracker.cleanup cfg (TokenAllowanceTracker.cleanup cfg tst now) now =
      TokenAllowanceTracker.cleanup cfg tst now :=
  ⟨cleanupC_idem st now, fun hnd key => cleanupC_lookup st now hnd key,
   cleanupT_idem cfg tst now⟩

/-- C7 witness: a two-key frequency store (one expiring) and a one-entry
tracker store. -/
theorem cleanup_spec_witness :
    FrequencyChecker.cleanup
        (FrequencyChecker.cleanup [("old", [0]), ("new", [90000000])] 90000000) 90000000 =
      FrequencyChecker.cleanup [("old", [0]), ("new", [90000000])] 90000000 ∧
    ((([("old", [0]), ("new", [90000000])] :
        FrequencyChecker.CState).map Prod.fst).Nodup → ∀ key,
      lookupList
          (FrequencyChecker.cleanup [("old", [0]), ("new", [90000000])] 90000000) key =
        (lookupList [("old", [0]), ("new", [90000000])] key).bind (fun ts =>
          if (validOf 90000000 ts).isEmpty then none else some (validOf 90000000 ts))) ∧
    TokenAllowanceTracker.cleanup [("w", "2")]
        (TokenAllowanceTracker.cleanup [("w", "2")] [("a", [("w", ⟨2, [0]⟩)])] 90000000)
        90000000 =
      TokenAllowanceTracker.cleanup [("w", "2")] [("a", [("w", ⟨2, [0]⟩)])] 90000000 :=
  cleanup_spec [("old", [0]), ("new", [90000000])] 90000000 [("w", "2")]
    [("a", [("w", ⟨2, [0]⟩)])]

/-- C5: a missing storage file and a file that fails to parse both yield
the empty in-memory mapping for either tracker without raising (the
loaders are total functions), and a failed `saveData()` write is
swallowed — nothing is written and the in-memory state is unchanged. -/
theorem storage_error_spec (cst : FrequencyChecker.CState)
    (tst : TokenAllowanceTracker.TState) :
    FrequencyChecker.loadRequests none = [] ∧
    FrequencyChecker.loadRequests (some none) = [] ∧
    TokenAllowanceTracker.loadAllowances none = [] ∧
    TokenAllowanceTracker.loadAllowances (some none) = [] ∧
    (FrequencyChecker.saveDataC cst false).1 = none ∧
    (FrequencyChecker.saveDataC cst false).2 = cst ∧
    (TokenAllowanceTracker.saveDataT tst false).1 = none ∧
    (TokenAllowanceTracker.saveDataT tst false).2 = tst :=
  ⟨rfl, rfl, rfl, rfl, rfl, rfl, rfl, rfl⟩

/-- Helper: the saved-record round trip preserves everything the pruning
step reads, so pruning the reloaded state is pruning the original. -/
theorem pruneRecord_reload (cfg : TokenAllowanceTracker.AmountConfig) (now : Nat) :
    (fun d : String × TokenAllowanceTracker.TokenRecord =>
      TokenAllowanceTracker.pruneRecord cfg now
        (d.1, (⟨TokenAllowanceTracker.parseDec (Nat.repr d.2.amount),
                d.2.timestamps⟩ : TokenAllowanceTracker.TokenRecord))) =
      TokenAllowanceTracker.pruneRecord cfg now :=
  funext fun _ => rfl

/-- Helper: serializing and reloading preserves the timestamp shape —
the keys, the denominations and the timestamp sequences. -/
theorem tsShape_reload (st : TokenAllowanceTracker.TState) :
    TokenAllowanceTracker.tsShape
      (TokenAllowanceTracker.deserializeAllowances
        (TokenAllowanceTracker.serializeAllowances st)) =
      TokenAllowanceTracker.tsShape st := by
  unfold TokenAllowanceTracker.tsShape TokenAllowanceTracker.deserializeAllowances
    TokenAllowanceTracker.serializeAllowances
  simp [List.map_map, Function.comp]

/-- Helper: serializing and reloading does not change the result of
compaction (which recomputes every cached amount). -/
theorem cleanup_reload (cfg : TokenAllowanceTracker.AmountConfig)
    (st : TokenAllowanceTracker.TState) (now : Nat) :
    TokenAllowanceTracker.cleanup cfg
      (TokenAllowanceTracker.deserializeAllowances
        (TokenAllowanceTracker.serializeAllowances st)) now =
      TokenAllowanceTracker.cleanup cfg st now := by
  unfold TokenAllowanceTracker.cleanup TokenAllowanceTracker.deserializeAllowances
    TokenAllowanceTracker.serializeAllowances
  rw [List.map_map, List.filterMap_map]
  refine List.filterMap_congr (fun a _ => ?_)
  show TokenAllowanceTracker.pruneAddress cfg now
      (a.1, (a.2.map (fun d => (d.1,
        (⟨Nat.repr d.2.amount, d.2.timestamps⟩ :
          TokenAllowanceTracker.SavedRecord)))).map (fun p => (p.1,
        (⟨TokenAllowanceTracker.parseDec p.2.amount, p.2.timestamps⟩ :
          TokenAllowanceTracker.TokenRecord)))) =
    TokenAllowanceTracker.pruneAddress cfg now a
  unfold TokenAllowanceTracker.pruneAddress
  rw [List.map_map, List.filterMap_map]
  have hfun : (TokenAllowanceTracker.pruneRecord cfg now ∘
      ((fun p : String × TokenAllowanceTracker.SavedRecord => (p.1,
        (⟨TokenAllowanceTracker.parseDec p.2.amount, p.2.timestamps⟩ :
          TokenAllowanceTracker.TokenRecord))) ∘
       (fun d : String × TokenAllowanceTracker.TokenRecord => (d.1,
        (⟨Nat.repr d.2.amount, d.2.timestamps⟩ :
          TokenAllowanceTracker.SavedRecord))))) =
      TokenAllowanceTracker.pruneRecord cfg now :=
    funext fun _ => rfl
  rw [hfun]

/-- C6: `saveData()` followed by loading from the same path reproduces an
equivalent state — the reloaded tracker has the same addresses, the
same denominations and the same timestamp sequences (hence the same
timestamp counts and the same recomputed amounts, as exhibited by the
amount-recomputing compaction), and the reloaded frequency checker is
exactly the saved one. -/
theorem saveData_roundtrip (cfg : TokenAllowanceTracker.AmountConfig)
    (tst : TokenAllowanceTracker.TState) (now : Nat)
    (cst : FrequencyChecker.CState) :
    (∀ d, (TokenAllowanceTracker.saveDataT tst true).1 = some d →
      TokenAllowanceTracker.tsShape
          (TokenAllowanceTracker.loadAllowances (some (some d))) =
        TokenAllowanceTracker.tsShape tst ∧
      TokenAllowanceTracker.cleanup cfg
          (TokenAllowanceTracker.loadAllowances (some (some d))) now =
        TokenAllowanceTracker.cleanup cfg tst now) ∧
    (∀ e, (FrequencyChecker.saveDataC cst true).1 = some e →
      FrequencyChecker.loadRequests (some (some e)) = cst) := by
  constructor
  · intro d h
    have hd : d = TokenAllowanceTracker.serializeAllowances tst := by
      unfold TokenAllowanceTracker.saveDataT at h
      rw [if_pos rfl] at h
      exact (Option.some.inj h).symm
    subst hd
    exact ⟨tsShape_reload tst, cleanup_reload cfg tst now⟩
  · intro e h
    have he : e = cst := by
      unfold FrequencyChecker.saveDataC at h
      rw [if_pos rfl] at h
      exact (Option.some.inj h).symm
    subst he
    rfl

/-- C6 witness: one tracker entry and one checker entry saved and
reloaded. -/
theorem saveData_roundtrip_witness :
    ((∀ d, (TokenAllowanceTracker.saveDataT [("a", [("w", ⟨2, [5]⟩)])] true).1 = some d →
      TokenAllowanceTracker.tsShape
          (TokenAllowanceTracker.loadAllowances (some (some d))) =
        TokenAllowanceTracker.tsShape [("a", [("w", ⟨2, [5]⟩)])] ∧
      TokenAllowanceTracker.cleanup [("w", "2")]
          (TokenAllowanceTracker.loadAllowances (some (some d))) 7 =
        TokenAllowanceTracker.cleanup [("w", "2")] [("a", [("w", ⟨2, [5]⟩)])] 7) ∧
    (∀ e, (FrequencyChecker.saveDataC [("k", [5])] true).1 = some e →
      FrequencyChecker.loadRequests (some (some e)) = [("k", [5])])) :=
  saveData_roundtrip [("w", "2")] [("a", [("w", ⟨2, [5]⟩)])] 7 [("k", [5])]
